import Mathlib

/-!
Shallow embedding of the tasacodesnippet repository:
  - src/cache.ts : a TTL+version key-value cache over Web Storage
    (localStorage / sessionStorage), with set/get/remove/clearAll/stats/
    cleanup/hasValid operations;
  - src/middleware.ts : the next-auth authorized callback (path-prefix
    based allow/deny decision);
  - src/unnamed/part_000 (dbconnect.js) : the memoized MongoDB connection.

Conventions of the embedding:
  - JS numbers used as millisecond timestamps and ttl values are modelled
    as Int (Date.now() results are nonnegative, but ttl is caller-supplied
    and may be any number).
  - A Web Storage backend is an association list of string keys to stored
    blobs, in enumeration order (Object.keys order).  A stored blob is
    either a well-formed JSON serialization of a CacheItem (constructor
    Blob.item) or any other string (constructor Blob.corrupt, carrying the
    string length; JSON.parse on it throws).  JSON.stringify of a cache
    item followed by JSON.parse is the identity on the items the facade
    writes, which the Blob.item constructor captures.
  - The browser environment is a Window with an optional store per backend;
    getStorage returning none models both server-side rendering
    (typeof window === undefined) and a storage access throw.
  - Each operation takes the current Date.now() value as an explicit
    argument and returns its result together with the updated Window.
-/

/-- Model of JS String.prototype.startsWith on the underlying char lists:
hasPrefixChars s p is true iff p is a leading segment of s. -/
def hasPrefixChars : List Char → List Char → Bool
  | _, [] => true
  | [], _ :: _ => false
  | c :: s, p :: ps => decide (p = c) && hasPrefixChars s ps

/-- JS s.startsWith(pre). -/
def jsStartsWith (s pre : String) : Bool :=
  hasPrefixChars s.data pre.data

/-- CacheItem from src/cache.ts: the serialized record stored per key.
The optional hash field is never written nor read by any operation and is
omitted. -/
structure CacheItem (α : Type) where
  data : α
  timestamp : Int
  expiresAt : Int
  version : String
deriving DecidableEq

/-- A raw value held in a Web Storage slot: either the JSON serialization
of a cache item, or any other string (length recorded), on which
JSON.parse throws. -/
inductive Blob (α : Type) where
  | item (it : CacheItem α)
  | corrupt (len : Nat)
deriving DecidableEq

/-- JS truthiness of the stored string: the empty string is falsy.  A
serialized cache item is a nonempty JSON object text, hence truthy. -/
def blobTruthy : Blob α → Bool
  | .item _ => true
  | .corrupt n => decide (n ≠ 0)

/-- A Web Storage backend: keys to blobs in enumeration order. -/
def Store (α : Type) := List (String × Blob α)

instance [DecidableEq α] : DecidableEq (Store α) :=
  inferInstanceAs (DecidableEq (List (String × Blob α)))

/-- storage.getItem(key): the value stored under key, or null. -/
def Store.getItem : Store α → String → Option (Blob α)
  | [], _ => none
  | p :: s, k => if p.1 = k then some p.2 else Store.getItem s k

/-- storage.setItem(key, v): replaces the value in place when the key is
present, appends otherwise. -/
def Store.setItem : Store α → String → Blob α → Store α
  | [], k, v => [(k, v)]
  | p :: s, k, v => if p.1 = k then (k, v) :: s else p :: Store.setItem s k v

/-- storage.removeItem(key). -/
def Store.removeItem : Store α → String → Store α
  | [], _ => []
  | p :: s, k => if p.1 = k then Store.removeItem s k else p :: Store.removeItem s k

/-- Object.keys(storage). -/
def Store.keys (s : Store α) : List String :=
  s.map Prod.fst

/-- The two Web Storage backends of src/cache.ts. -/
inductive StorageType where
  | localStorage
  | sessionStorage
deriving DecidableEq

/-- The browser environment: each backend is present or unavailable. -/
structure Window (α : Type) where
  localStorage : Option (Store α)
  sessionStorage : Option (Store α)
deriving DecidableEq

/-- getStorage from src/cache.ts lines 41-54: resolves the selector to the
backend, or null outside a browser / when access throws. -/
def getStorage (w : Window α) : StorageType → Option (Store α)
  | .localStorage => w.localStorage
  | .sessionStorage => w.sessionStorage

/-- Writing back the mutated backend into the environment. -/
def Window.setStore (w : Window α) : StorageType → Store α → Window α
  | .localStorage, s => { w with localStorage := some s }
  | .sessionStorage, s => { w with sessionStorage := some s }

/-- CacheOptions from src/cache.ts lines 21-26: per-call overrides, each
field optional. -/
structure CacheOptions where
  ttl : Option Int := none
  version : Option String := none
  storage : Option StorageType := none
  forceRefresh : Option Bool := none
deriving DecidableEq

/-- The fully populated per-call configuration. -/
structure CacheConfig where
  ttl : Int
  version : String
  storage : StorageType
  forceRefresh : Bool
deriving DecidableEq

/-- DEFAULT_CACHE_CONFIG from src/cache.ts lines 31-36. -/
def DEFAULT_CACHE_CONFIG : CacheConfig :=
  { ttl := 5 * 60 * 1000, version := "1.0.0",
    storage := .localStorage, forceRefresh := false }

/-- The spread merge of the defaults with the caller's options
(config = { ...DEFAULT_CACHE_CONFIG, ...options }). -/
def mergeConfig (options : CacheOptions) : CacheConfig :=
  { ttl := options.ttl.getD DEFAULT_CACHE_CONFIG.ttl,
    version := options.version.getD DEFAULT_CACHE_CONFIG.version,
    storage := options.storage.getD DEFAULT_CACHE_CONFIG.storage,
    forceRefresh := options.forceRefresh.getD DEFAULT_CACHE_CONFIG.forceRefresh }

/-- isExpired from src/cache.ts lines 59-61: Date.now() > item.expiresAt. -/
def isExpired (item : CacheItem α) (now : Int) : Bool :=
  decide (now > item.expiresAt)

/-- isVersionOutdated from src/cache.ts lines 66-68. -/
def isVersionOutdated (item : CacheItem α) (currentVersion : String) : Bool :=
  decide (item.version ≠ currentVersion)

/-- setCacheData from src/cache.ts lines 73-103. -/
def setCacheData (w : Window α) (now : Int) (key : String) (data : α)
    (options : CacheOptions) : Bool × Window α :=
  let config := mergeConfig options
  match getStorage w config.storage with
  | none => (false, w)
  | some storage =>
    let cacheItem : CacheItem α :=
      { data := data, timestamp := now, expiresAt := now + config.ttl,
        version := config.version }
    (true, w.setStore config.storage (storage.setItem key (.item cacheItem)))

/-- getCacheData from src/cache.ts lines 108-145.  A corrupt blob makes
JSON.parse throw; the catch logs and returns null without mutating. -/
def getCacheData (w : Window α) (now : Int) (key : String)
    (options : CacheOptions) : Option α × Window α :=
  let config := mergeConfig options
  match getStorage w config.storage with
  | none => (none, w)
  | some storage =>
    match storage.getItem key with
    | none => (none, w)
    | some cachedData =>
      if blobTruthy cachedData then
        match cachedData with
        | .corrupt _ => (none, w)
        | .item cacheItem =>
          if isExpired cacheItem now then
            (none, w.setStore config.storage (storage.removeItem key))
          else if isVersionOutdated cacheItem config.version then
            (none, w.setStore config.storage (storage.removeItem key))
          else
            (some cacheItem.data, w)
      else (none, w)

/-- removeCacheData from src/cache.ts lines 150-166. -/
def removeCacheData (w : Window α) (key : String) (storage : StorageType) :
    Bool × Window α :=
  match getStorage w storage with
  | none => (false, w)
  | some storageObj =>
    (true, w.setStore storage (storageObj.removeItem key))

/-- clearAllCache from src/cache.ts lines 171-193: removes every key
starting with the tasa_cache_ prefix. -/
def clearAllCache (w : Window α) (storage : StorageType) : Bool × Window α :=
  match getStorage w storage with
  | none => (false, w)
  | some storageObj =>
    let cacheKeys := storageObj.keys.filter (fun k => jsStartsWith k "tasa_cache_")
    (true, w.setStore storage (cacheKeys.foldl Store.removeItem storageObj))

/-- The stats record returned by getCacheStats. -/
structure CacheStats where
  totalKeys : Nat
  cacheKeys : Nat
  expiredKeys : Nat
  totalSize : Nat
deriving DecidableEq

/-- One iteration of the forEach loop in getCacheStats (src/cache.ts lines
217-230), acting on the accumulated (expiredKeys, totalSize).  strLen
gives the serialized string length of an item blob (cachedData.length).
The length is added before JSON.parse runs, so a corrupt blob contributes
its length to totalSize while the parse throw is caught and logged. -/
def statsVisit (storageObj : Store α) (strLen : CacheItem α → Nat) (now : Int)
    (acc : Nat × Nat) (key : String) : Nat × Nat :=
  match storageObj.getItem key with
  | none => acc
  | some cachedData =>
    if blobTruthy cachedData then
      match cachedData with
      | .item cacheItem =>
        ((if isExpired cacheItem now then acc.1 + 1 else acc.1),
         acc.2 + strLen cacheItem)
      | .corrupt n => (acc.1, acc.2 + n)
    else acc

/-- getCacheStats from src/cache.ts lines 198-242. -/
def getCacheStats (w : Window α) (now : Int) (storage : StorageType)
    (strLen : CacheItem α → Nat) : CacheStats :=
  match getStorage w storage with
  | none => ⟨0, 0, 0, 0⟩
  | some storageObj =>
    let keys := storageObj.keys
    let cacheKeys := keys.filter (fun k => jsStartsWith k "tasa_cache_")
    let r := cacheKeys.foldl (statsVisit storageObj strLen now) (0, 0)
    ⟨keys.length, cacheKeys.length, r.1, r.2⟩

/-- One iteration of the forEach loop in cleanupExpiredCache (src/cache.ts
lines 260-276), acting on (current store, removedCount).  A parse throw on
a corrupt blob is caught and the entry removed as corrupted. -/
def cleanupVisit (now : Int) (acc : Store α × Nat) (key : String) :
    Store α × Nat :=
  match acc.1.getItem key with
  | none => acc
  | some cachedData =>
    if blobTruthy cachedData then
      match cachedData with
      | .item cacheItem =>
        if isExpired cacheItem now then (acc.1.removeItem key, acc.2 + 1)
        else acc
      | .corrupt _ => (acc.1.removeItem key, acc.2 + 1)
    else acc

/-- cleanupExpiredCache from src/cache.ts lines 247-283. -/
def cleanupExpiredCache (w : Window α) (now : Int) (storage : StorageType) :
    Nat × Window α :=
  match getStorage w storage with
  | none => (0, w)
  | some storageObj =>
    let cacheKeys := storageObj.keys.filter (fun k => jsStartsWith k "tasa_cache_")
    let r := cacheKeys.foldl (cleanupVisit now) (storageObj, 0)
    (r.2, w.setStore storage r.1)

/-- hasValidCache from src/cache.ts lines 288-314.  No branch mutates the
backend; the Window is returned unchanged to make the frame explicit. -/
def hasValidCache (w : Window α) (now : Int) (key : String)
    (options : CacheOptions) : Bool × Window α :=
  let config := mergeConfig options
  match getStorage w config.storage with
  | none => (false, w)
  | some storage =>
    match storage.getItem key with
    | none => (false, w)
    | some cachedData =>
      if blobTruthy cachedData then
        match cachedData with
        | .corrupt _ => (false, w)
        | .item cacheItem =>
          (!isExpired cacheItem now &&
            !isVersionOutdated cacheItem config.version, w)
      else (false, w)

/-- The authorized callback from src/middleware.ts lines 11-26, over the
request pathname and the session token (null or present). -/
def authorized (pathname : String) (token : Option τ) : Bool :=
  if jsStartsWith pathname "/auth/" then true
  else if jsStartsWith pathname "/dashboard" || jsStartsWith pathname "/profile" then
    token.isSome
  else true

/-!  Basic lemmas about the Store operations.  -/

theorem getItem_setItem_self (s : Store α) (k : String) (v : Blob α) :
    (s.setItem k v).getItem k = some v := by
  induction s with
  | nil => simp [Store.setItem, Store.getItem]
  | cons p s ih =>
    by_cases h : p.1 = k
    · simp [Store.setItem, h, Store.getItem]
    · simp [Store.setItem, h, Store.getItem, ih]

theorem getItem_setItem_ne (s : Store α) (k k' : String) (v : Blob α)
    (h : k ≠ k') : (s.setItem k v).getItem k' = s.getItem k' := by
  induction s with
  | nil => simp [Store.setItem, Store.getItem, h]
  | cons p s ih =>
    by_cases hp : p.1 = k
    · simp [Store.setItem, hp, Store.getItem, h]
    · by_cases hp' : p.1 = k'
      · have hk : ¬(k' = k) := fun hh => h hh.symm
        simp [Store.setItem, hp, Store.getItem, hp', hk]
      · simp [Store.setItem, hp, Store.getItem, hp', ih]

theorem getItem_removeItem_self (s : Store α) (k : String) :
    (s.removeItem k).getItem k = none := by
  induction s with
  | nil => simp [Store.removeItem, Store.getItem]
  | cons p s ih =>
    by_cases h : p.1 = k
    · simp [Store.removeItem, h, ih]
    · simp [Store.removeItem, h, Store.getItem, ih]

theorem getItem_removeItem_ne (s : Store α) (k k' : String) (h : k ≠ k') :
    (s.removeItem k).getItem k' = s.getItem k' := by
  induction s with
  | nil => simp [Store.removeItem, Store.getItem]
  | cons p s ih =>
    by_cases hp : p.1 = k
    · have : p.1 ≠ k' := hp ▸ h
      simp [Store.removeItem, hp, Store.getItem, this, h, ih]
    · simp [Store.removeItem, hp, Store.getItem, ih]

theorem getStorage_setStore_self (w : Window α) (t : StorageType) (s : Store α) :
    getStorage (w.setStore t s) t = some s := by
  cases t <;> rfl

/-- C1: after a successful setCacheData of payload d under key k, a
getCacheData of k with the same options (hence the same version and
storage selection), performed before ttl milliseconds have elapsed,
returns d. -/
theorem roundtrip_set_get (w : Window α) (t0 t1 : Int) (k : String) (d : α)
    (opts : CacheOptions)
    (hset : (setCacheData w t0 k d opts).1 = true)
    (ht : t1 < t0 + (mergeConfig opts).ttl) :
    (getCacheData (setCacheData w t0 k d opts).2 t1 k opts).1 = some d := by
  unfold setCacheData at hset ⊢
  rcases hs : getStorage w (mergeConfig opts).storage with _ | s
  · simp [hs] at hset
  · simp only [hs]
    unfold getCacheData
    simp only [getStorage_setStore_self, getItem_setItem_self, blobTruthy]
    have hexp : ¬(t1 > t0 + (mergeConfig opts).ttl) := by omega
    simp [isExpired, isVersionOutdated, hexp]

/-- Closed witness for roundtrip_set_get at a concrete input. -/
theorem roundtrip_set_get_witness :
    ((setCacheData (α := Nat) ⟨some [], none⟩ 10 "profile_1" 7 {}).1 = true ∧
      (11 : Int) < 10 + (mergeConfig {}).ttl) ∧
    (getCacheData (setCacheData (α := Nat) ⟨some [], none⟩ 10 "profile_1" 7 {}).2
      11 "profile_1" {}).1 = some 7 :=
  ⟨⟨by decide, by decide⟩,
    roundtrip_set_get ⟨some [], none⟩ 10 11 "profile_1" 7 {} (by decide) (by decide)⟩

/-- C2: getCacheData on a stored entry that is expired or carries a
version different from the configured one returns null and removes the
key from the backend. -/
theorem get_evicts_invalid (w : Window α) (now : Int) (k : String)
    (opts : CacheOptions) (s : Store α) (it : CacheItem α)
    (hs : getStorage w (mergeConfig opts).storage = some s)
    (hit : s.getItem k = some (.item it))
    (hbad : now > it.expiresAt ∨ it.version ≠ (mergeConfig opts).version) :
    (getCacheData w now k opts).1 = none ∧
    ∃ s2, getStorage (getCacheData w now k opts).2 (mergeConfig opts).storage
        = some s2 ∧ s2.getItem k = none := by
  unfold getCacheData
  simp only [hs, hit, blobTruthy]
  by_cases hexp : now > it.expiresAt
  · simp [isExpired, hexp, getStorage_setStore_self, getItem_removeItem_self]
  · have hver : it.version ≠ (mergeConfig opts).version := hbad.resolve_left hexp
    simp [isExpired, hexp, isVersionOutdated, hver, getStorage_setStore_self,
      getItem_removeItem_self]

/-- Closed witness for get_evicts_invalid: an expired entry read at a
later instant. -/
theorem get_evicts_invalid_witness :
    (getStorage (α := Nat) ⟨some [("k1", Blob.item ⟨5, 0, 10, "1.0.0"⟩)], none⟩
        (mergeConfig {}).storage = some [("k1", Blob.item ⟨5, 0, 10, "1.0.0"⟩)] ∧
      Store.getItem (α := Nat) [("k1", Blob.item ⟨5, 0, 10, "1.0.0"⟩)] "k1"
        = some (.item ⟨5, 0, 10, "1.0.0"⟩) ∧
      ((11 : Int) > 10 ∨ "1.0.0" ≠ (mergeConfig {}).version)) ∧
    ((getCacheData (α := Nat) ⟨some [("k1", Blob.item ⟨5, 0, 10, "1.0.0"⟩)], none⟩
        11 "k1" {}).1 = none ∧
      ∃ s2, getStorage (getCacheData (α := Nat)
          ⟨some [("k1", Blob.item ⟨5, 0, 10, "1.0.0"⟩)], none⟩ 11 "k1" {}).2
          (mergeConfig {}).storage = some s2 ∧ s2.getItem "k1" = none) :=
  ⟨⟨by decide, by decide, Or.inl (by decide)⟩,
    get_evicts_invalid ⟨some [("k1", Blob.item ⟨5, 0, 10, "1.0.0"⟩)], none⟩
      11 "k1" {} [("k1", Blob.item ⟨5, 0, 10, "1.0.0"⟩)] ⟨5, 0, 10, "1.0.0"⟩
      (by decide) (by decide) (Or.inl (by decide))⟩

/-- C3 counterexample: one application-prefixed key holding an unparsable
blob of length 5.  getCacheStats counts 0 expired keys but totalSize 5,
not 0: the length is added before JSON.parse throws. -/
theorem stats_corrupt_size_counterexample :
    getCacheStats (α := Nat) ⟨some [("tasa_cache_x", Blob.corrupt 5)], none⟩ 0
      .localStorage (fun _ => 0) = ⟨1, 1, 0, 5⟩ ∧ (5 : Nat) ≠ 0 := by
  constructor
  · rfl
  · decide

/-- C3 amended: for an application-prefixed key whose stored blob fails to
parse, the scan does not abort (the loop step is total and leaves the
accumulator defined), the failure is logged, and the key contributes 0 to
expiredKeys but its full string length to totalSize. -/
theorem stats_corrupt_contribution (s : Store α) (strLen : CacheItem α → Nat)
    (now : Int) (k : String) (n : Nat) (acc : Nat × Nat)
    (hit : s.getItem k = some (.corrupt n)) (hn : n ≠ 0) :
    statsVisit s strLen now acc k = (acc.1, acc.2 + n) := by
  simp [statsVisit, hit, blobTruthy, hn]

/-- Closed witness for stats_corrupt_contribution. -/
theorem stats_corrupt_contribution_witness :
    (Store.getItem (α := Nat) [("tasa_cache_x", Blob.corrupt 5)] "tasa_cache_x"
        = some (.corrupt 5) ∧ (5 : Nat) ≠ 0) ∧
    statsVisit (α := Nat) [("tasa_cache_x", Blob.corrupt 5)] (fun _ => 0) 0
      (3, 4) "tasa_cache_x" = (3, 9) :=
  ⟨⟨by decide, by decide⟩,
    stats_corrupt_contribution [("tasa_cache_x", Blob.corrupt 5)] (fun _ => 0)
      0 "tasa_cache_x" 5 (3, 4) (by decide) (by decide)⟩

theorem hasPrefix_head2 (s : List Char) (a b : Char) (p : List Char)
    (h : hasPrefixChars s (a :: b :: p) = true) : ∃ t, s = a :: b :: t := by
  cases s with
  | nil => simp [hasPrefixChars] at h
  | cons c s1 =>
    cases s1 with
    | nil => simp [hasPrefixChars] at h
    | cons c2 s2 =>
      simp [hasPrefixChars] at h
      exact ⟨s2, by rw [h.1, h.2.1]⟩

theorem not_auth_of_dashboard (p : String)
    (h : jsStartsWith p "/dashboard" = true) : jsStartsWith p "/auth/" = false := by
  have hd : "/dashboard".data = '/' :: 'd' :: "ashboard".data := rfl
  have ha : "/auth/".data = '/' :: 'a' :: "uth/".data := rfl
  rw [Bool.eq_false_iff]
  intro hc
  unfold jsStartsWith at h hc
  rw [hd] at h
  rw [ha] at hc
  obtain ⟨t, ht⟩ := hasPrefix_head2 _ _ _ _ h
  obtain ⟨t2, ht2⟩ := hasPrefix_head2 _ _ _ _ hc
  rw [ht] at ht2
  simp at ht2

theorem not_auth_of_profile (p : String)
    (h : jsStartsWith p "/profile" = true) : jsStartsWith p "/auth/" = false := by
  have hd : "/profile".data = '/' :: 'p' :: "rofile".data := rfl
  have ha : "/auth/".data = '/' :: 'a' :: "uth/".data := rfl
  rw [Bool.eq_false_iff]
  intro hc
  unfold jsStartsWith at h hc
  rw [hd] at h
  rw [ha] at hc
  obtain ⟨t, ht⟩ := hasPrefix_head2 _ _ _ _ h
  obtain ⟨t2, ht2⟩ := hasPrefix_head2 _ _ _ _ hc
  rw [ht] at ht2
  simp at ht2

/-- C5: the authorized callback allows every path under the /auth/ prefix,
decides by token presence under /dashboard or /profile, allows every
other path, and in particular denies /dashboard/settings without a token
while allowing /auth/login and /public/info without a token. -/
theorem authorized_decision (p : String) (token : Option τ) :
    (jsStartsWith p "/auth/" = true → authorized p token = true) ∧
    ((jsStartsWith p "/dashboard" = true ∨ jsStartsWith p "/profile" = true) →
      authorized p token = token.isSome) ∧
    (jsStartsWith p "/auth/" = false → jsStartsWith p "/dashboard" = false →
      jsStartsWith p "/profile" = false → authorized p token = true) ∧
    authorized "/dashboard/settings" (none : Option τ) = false ∧
    authorized "/auth/login" (none : Option τ) = true ∧
    authorized "/public/info" (none : Option τ) = true := by
  refine ⟨?_, ?_, ?_, ?_, ?_, ?_⟩
  · intro h
    simp [authorized, h]
  · rintro (h | h)
    · have := not_auth_of_dashboard p h
      simp [authorized, this, h]
    · have := not_auth_of_profile p h
      simp [authorized, this, h]
  · intro h1 h2 h3
    simp [authorized, h1, h2, h3]
  · rfl
  · rfl
  · rfl

/-- Closed witness for authorized_decision, exercising the protected
branch at a concrete path. -/
theorem authorized_decision_witness :
    (jsStartsWith "/dashboard/settings" "/dashboard" = true ∨
      jsStartsWith "/dashboard/settings" "/profile" = true) ∧
    authorized "/dashboard/settings" (some ()) = (some ()).isSome :=
  ⟨Or.inl (by decide),
    (authorized_decision "/dashboard/settings" (some ())).2.1 (Or.inl (by decide))⟩

/-- The module-level connection cache of src/unnamed/part_000
(dbconnect.js): a pending connection attempt (identified by a promise id)
and an established connection handle. -/
structure ConnCache (χ : Type) where
  promise : Option Nat
  connection : Option χ
deriving DecidableEq

/-- What the synchronous phase of dbConnect produces before its await: an
immediately returned cached connection, or the promise it will await. -/
inductive SyncResult (χ : Type) where
  | cachedConn (c : χ)
  | awaitPromise (p : Nat)
deriving DecidableEq

/-- The synchronous prefix of dbConnect (dbconnect.js lines 11-20, up to
the await): return the cached connection if set; otherwise reuse the
stored promise or, when none exists, start one fresh mongoose.connect
attempt (identified by fresh) and store it.  The Bool records whether a
new underlying connection attempt was initiated by this call.  In the JS
event-loop model concurrent async calls interleave only at awaits, so
each call runs this phase atomically. -/
def dbConnectSync (cached : ConnCache χ) (fresh : Nat) :
    SyncResult χ × ConnCache χ × Bool :=
  match cached.connection with
  | some c => (.cachedConn c, cached, false)
  | none =>
    match cached.promise with
    | some p => (.awaitPromise p, cached, false)
    | none => (.awaitPromise fresh, { cached with promise := some fresh }, true)

/-- The await resuming after the promise resolves:
cached.connection = await cached.promise (dbconnect.js line 22). -/
def dbConnectResolve (cached : ConnCache χ) (c : χ) : ConnCache χ :=
  { cached with connection := some c }

/-- The catch after the promise rejects (dbconnect.js lines 25-30): both
fields cleared; the failure is logged and the process exits. -/
def dbConnectReject (_cached : ConnCache χ) : ConnCache χ :=
  { promise := none, connection := none }

/-- C6: after a successful resolution every call returns the cached
handle with no new attempt; a call during Pending observes the stored
pending handle and initiates nothing; and two calls interleaved from the
empty state initiate exactly one attempt, both observing the same
promise. -/
theorem dbConnect_memoizes (st : ConnCache χ) (c : χ) (p q fresh : Nat) :
    (st.connection = some c →
      dbConnectSync st fresh = (.cachedConn c, st, false)) ∧
    (dbConnectSync (dbConnectResolve st c) fresh
      = (.cachedConn c, dbConnectResolve st c, false)) ∧
    (st.connection = none → st.promise = some p →
      dbConnectSync st fresh = (.awaitPromise p, st, false)) ∧
    (dbConnectSync (⟨none, none⟩ : ConnCache χ) p
        = (.awaitPromise p, ⟨some p, none⟩, true) ∧
      dbConnectSync (⟨some p, none⟩ : ConnCache χ) q
        = (.awaitPromise p, ⟨some p, none⟩, false)) := by
  refine ⟨?_, ?_, ?_, ?_, ?_⟩
  · intro h
    simp [dbConnectSync, h]
  · simp [dbConnectSync, dbConnectResolve]
  · intro h1 h2
    simp [dbConnectSync, h1, h2]
  · simp [dbConnectSync]
  · simp [dbConnectSync]

/-- Closed witness for dbConnect_memoizes. -/
theorem dbConnect_memoizes_witness :
    ((⟨none, some 3⟩ : ConnCache Nat).connection = some 3 ∧
      dbConnectSync (⟨none, some 3⟩ : ConnCache Nat) 9
        = (.cachedConn 3, ⟨none, some 3⟩, false)) :=
  ⟨by decide, (dbConnect_memoizes (⟨none, some 3⟩ : ConnCache Nat) 3 1 2 9).1
    (by decide)⟩

theorem getStorage_none_of_both (w : Window α) (t : StorageType)
    (h1 : w.localStorage = none) (h2 : w.sessionStorage = none) :
    getStorage w t = none := by
  cases t
  · exact h1
  · exact h2

/-- C4: every cache operation is total: with the backend unavailable each
operation returns its safe default and leaves the environment unchanged,
and a deserialization failure on read (corrupt blob) yields null / false
without raising. -/
theorem cache_ops_total_on_failure (w w2 : Window α) (now : Int) (k : String)
    (d : α) (opts : CacheOptions) (st : StorageType)
    (strLen : CacheItem α → Nat) (s : Store α) (n : Nat)
    (h1 : w.localStorage = none) (h2 : w.sessionStorage = none)
    (hs : getStorage w2 (mergeConfig opts).storage = some s)
    (hc : s.getItem k = some (.corrupt n)) :
    setCacheData w now k d opts = (false, w) ∧
    getCacheData w now k opts = (none, w) ∧
    removeCacheData w k st = (false, w) ∧
    clearAllCache w st = (false, w) ∧
    getCacheStats w now st strLen = ⟨0, 0, 0, 0⟩ ∧
    cleanupExpiredCache w now st = (0, w) ∧
    hasValidCache w now k opts = (false, w) ∧
    getCacheData w2 now k opts = (none, w2) ∧
    hasValidCache w2 now k opts = (false, w2) := by
  have hn : ∀ t, getStorage w t = none := fun t => getStorage_none_of_both w t h1 h2
  refine ⟨?_, ?_, ?_, ?_, ?_, ?_, ?_, ?_, ?_⟩
  · simp [setCacheData, hn]
  · simp [getCacheData, hn]
  · simp [removeCacheData, hn]
  · simp [clearAllCache, hn]
  · simp [getCacheStats, hn]
  · simp [cleanupExpiredCache, hn]
  · simp [hasValidCache, hn]
  · by_cases hz : n = 0
    · simp [getCacheData, hs, hc, blobTruthy, hz]
    · simp [getCacheData, hs, hc, blobTruthy, hz]
  · by_cases hz : n = 0
    · simp [hasValidCache, hs, hc, blobTruthy, hz]
    · simp [hasValidCache, hs, hc, blobTruthy, hz]

/-- Closed witness for cache_ops_total_on_failure: both backends
unavailable, and a second environment holding a corrupt blob. -/
theorem cache_ops_total_on_failure_witness :
    ((Window.mk (α := Nat) none none).localStorage = none ∧
      (Window.mk (α := Nat) none none).sessionStorage = none ∧
      getStorage (α := Nat) ⟨some [("k1", Blob.corrupt 3)], none⟩
        (mergeConfig {}).storage = some [("k1", Blob.corrupt 3)] ∧
      Store.getItem (α := Nat) [("k1", Blob.corrupt 3)] "k1"
        = some (.corrupt 3)) ∧
    (setCacheData (Window.mk (α := Nat) none none) 0 "k1" 7 {}
        = (false, Window.mk none none) ∧
      getCacheData (α := Nat) ⟨some [("k1", Blob.corrupt 3)], none⟩ 0 "k1" {}
        = (none, ⟨some [("k1", Blob.corrupt 3)], none⟩)) := by
  have h := cache_ops_total_on_failure (Window.mk (α := Nat) none none)
    ⟨some [("k1", Blob.corrupt 3)], none⟩ 0 "k1" 7 {} .localStorage
    (fun _ => 0) [("k1", Blob.corrupt 3)] 3 rfl rfl (by decide) (by decide)
  exact ⟨⟨rfl, rfl, by decide, by decide⟩, h.1, h.2.2.2.2.2.2.2.1⟩

/-- C9: the forceRefresh option is merged into the per-call config but
read by no operation: every operation returns the same result and the
same environment whatever its value. -/
theorem forceRefresh_inert (w : Window α) (now : Int) (k : String) (d : α)
    (opts : CacheOptions) (x : Option Bool) :
    setCacheData w now k d { opts with forceRefresh := x }
      = setCacheData w now k d opts ∧
    getCacheData w now k { opts with forceRefresh := x }
      = getCacheData w now k opts ∧
    hasValidCache w now k { opts with forceRefresh := x }
      = hasValidCache w now k opts := by
  refine ⟨?_, ?_, ?_⟩
  · simp [setCacheData, mergeConfig]
  · simp [getCacheData, mergeConfig]
  · simp [hasValidCache, mergeConfig]

/-- C8: hasValidCache never mutates the environment, and (with the
backend available) returns true exactly when an entry for the key exists,
is not expired, and carries the configured version. -/
theorem hasValidCache_pure_observer (w : Window α) (now : Int) (k : String)
    (opts : CacheOptions) :
    (hasValidCache w now k opts).2 = w ∧
    (∀ s, getStorage w (mergeConfig opts).storage = some s →
      ((hasValidCache w now k opts).1 = true ↔
        ∃ it, s.getItem k = some (.item it) ∧ ¬(now > it.expiresAt) ∧
          it.version = (mergeConfig opts).version)) := by
  constructor
  · unfold hasValidCache
    rcases hgs : getStorage w (mergeConfig opts).storage with _ | s
    · simp [hgs]
    · simp only [hgs]
      rcases hit : s.getItem k with _ | b
      · simp [hit]
      · rcases b with it | n
        · simp [hit, blobTruthy]
        · by_cases hz : n = 0
          · simp [hit, blobTruthy, hz]
          · simp [hit, blobTruthy, hz]
  · intro s hgs
    unfold hasValidCache
    simp only [hgs]
    rcases hit : s.getItem k with _ | b
    · simp [hit]
    · rcases b with it | n
      · simp [hit, blobTruthy, isExpired, isVersionOutdated]
      · by_cases hz : n = 0
        · simp [hit, blobTruthy, hz]
        · simp [hit, blobTruthy, hz]

/-- Closed witness for hasValidCache_pure_observer on a valid entry. -/
theorem hasValidCache_pure_observer_witness :
    ((hasValidCache (α := Nat)
        ⟨some [("k1", Blob.item ⟨5, 0, 10, "1.0.0"⟩)], none⟩ 4 "k1" {}).2
      = ⟨some [("k1", Blob.item ⟨5, 0, 10, "1.0.0"⟩)], none⟩) ∧
    (getStorage (α := Nat) ⟨some [("k1", Blob.item ⟨5, 0, 10, "1.0.0"⟩)], none⟩
        (mergeConfig {}).storage = some [("k1", Blob.item ⟨5, 0, 10, "1.0.0"⟩)]) ∧
    ((hasValidCache (α := Nat)
        ⟨some [("k1", Blob.item ⟨5, 0, 10, "1.0.0"⟩)], none⟩ 4 "k1" {}).1 = true ↔
      ∃ it, Store.getItem (α := Nat) [("k1", Blob.item ⟨5, 0, 10, "1.0.0"⟩)] "k1"
          = some (.item it) ∧ ¬((4 : Int) > it.expiresAt) ∧
        it.version = (mergeConfig {}).version) :=
  ⟨(hasValidCache_pure_observer
      ⟨some [("k1", Blob.item ⟨5, 0, 10, "1.0.0"⟩)], none⟩ 4 "k1" {}).1,
    by decide,
    (hasValidCache_pure_observer
      ⟨some [("k1", Blob.item ⟨5, 0, 10, "1.0.0"⟩)], none⟩ 4 "k1" {}).2
      [("k1", Blob.item ⟨5, 0, 10, "1.0.0"⟩)] (by decide)⟩

theorem keys_cons (p : String × Blob α) (s : Store α) :
    Store.keys (p :: s) = p.1 :: Store.keys s := rfl

theorem getItem_eq_none_of_not_mem_keys (s : Store α) (k : String)
    (h : k ∉ s.keys) : s.getItem k = none := by
  induction s with
  | nil => rfl
  | cons p s ih =>
    rw [keys_cons, List.mem_cons] at h
    push_neg at h
    have hne : p.1 ≠ k := fun hh => h.1 hh.symm
    simp [Store.getItem, hne, ih h.2]

theorem mem_keys_removeItem (s : Store α) (a k : String) :
    k ∈ (s.removeItem a).keys ↔ k ∈ s.keys ∧ k ≠ a := by
  induction s with
  | nil => simp [Store.removeItem, Store.keys]
  | cons p s ih =>
    by_cases h : p.1 = a
    · simp only [Store.removeItem, if_pos h, ih, keys_cons, List.mem_cons]
      constructor
      · rintro ⟨hm, hne⟩
        exact ⟨Or.inr hm, hne⟩
      · rintro ⟨hm | hm, hne⟩
        · exact absurd (hm.trans h) hne
        · exact ⟨hm, hne⟩
    · simp only [Store.removeItem, if_neg h, keys_cons, List.mem_cons, ih]
      constructor
      · rintro (hm | ⟨hm, hne⟩)
        · exact ⟨Or.inl hm, fun hh => h (by rw [← hm, hh])⟩
        · exact ⟨Or.inr hm, hne⟩
      · rintro ⟨hm | hm, hne⟩
        · exact Or.inl hm
        · exact Or.inr ⟨hm, hne⟩

theorem mem_keys_foldl_removeItem (ks : List String) (s : Store α) (k : String) :
    k ∈ (ks.foldl Store.removeItem s).keys ↔ k ∈ s.keys ∧ k ∉ ks := by
  induction ks generalizing s with
  | nil => simp
  | cons a ks ih =>
    simp only [List.foldl_cons, ih, mem_keys_removeItem, List.mem_cons]
    constructor
    · rintro ⟨⟨hm, hne⟩, hnin⟩
      exact ⟨hm, fun hh => hh.elim hne hnin⟩
    · rintro ⟨hm, hnin⟩
      exact ⟨⟨hm, fun hh => hnin (Or.inl hh)⟩, fun hh => hnin (Or.inr hh)⟩

theorem getItem_foldl_removeItem (ks : List String) (s : Store α) (k : String) :
    (ks.foldl Store.removeItem s).getItem k
      = if k ∈ ks then none else s.getItem k := by
  induction ks generalizing s with
  | nil => simp
  | cons a ks ih =>
    simp only [List.foldl_cons, ih]
    by_cases hk : k = a
    · subst hk
      by_cases hmem : k ∈ ks <;>
        simp [hmem, getItem_removeItem_self]
    · by_cases hmem : k ∈ ks
      · simp [hmem, List.mem_cons, hk]
      · simp [hmem, List.mem_cons, hk,
          getItem_removeItem_ne s a k (fun hh => hk hh.symm)]

/-- C7: clearAllCache returns false exactly on an unavailable backend;
otherwise it returns true, deletes every application-prefixed key, leaves
every other key untouched, and a getCacheStats performed afterwards
reports cacheKeys = 0. -/
theorem clearAllCache_frame (w : Window α) (st : StorageType) (now : Int)
    (strLen : CacheItem α → Nat) :
    (getStorage w st = none → clearAllCache w st = (false, w)) ∧
    (∀ s, getStorage w st = some s →
      (clearAllCache w st).1 = true ∧
      ∃ s2, getStorage (clearAllCache w st).2 st = some s2 ∧
        (∀ k, jsStartsWith k "tasa_cache_" = true → s2.getItem k = none) ∧
        (∀ k, jsStartsWith k "tasa_cache_" = false → s2.getItem k = s.getItem k) ∧
        (getCacheStats (clearAllCache w st).2 now st strLen).cacheKeys = 0) := by
  constructor
  · intro h
    simp [clearAllCache, h]
  · intro s hs
    unfold clearAllCache
    simp only [hs]
    refine ⟨trivial, _, getStorage_setStore_self _ _ _, ?_, ?_, ?_⟩
    · intro k hk
      rw [getItem_foldl_removeItem]
      by_cases hmem : k ∈ (s.keys.filter (fun k2 => jsStartsWith k2 "tasa_cache_"))
      · simp [hmem]
      · rw [if_neg hmem]
        apply getItem_eq_none_of_not_mem_keys
        intro hmk
        exact hmem (List.mem_filter.mpr ⟨hmk, hk⟩)
    · intro k hk
      rw [getItem_foldl_removeItem]
      have hnm : k ∉ (s.keys.filter (fun k2 => jsStartsWith k2 "tasa_cache_")) := by
        intro hmem
        have := (List.mem_filter.mp hmem).2
        rw [hk] at this
        exact Bool.false_ne_true this
      rw [if_neg hnm]
    · unfold getCacheStats
      rw [getStorage_setStore_self]
      have hfil : (Store.keys ((s.keys.filter
            (fun k2 => jsStartsWith k2 "tasa_cache_")).foldl Store.removeItem s)).filter
          (fun k2 => jsStartsWith k2 "tasa_cache_") = [] := by
        rw [List.filter_eq_nil_iff]
        intro k hkmem
        intro hpref
        have hm := (mem_keys_foldl_removeItem _ _ _).mp hkmem
        exact hm.2 (List.mem_filter.mpr ⟨hm.1, hpref⟩)
      simp [hfil]

/-- Closed witness for clearAllCache_frame: a backend holding one
prefixed and one unprefixed key. -/
theorem clearAllCache_frame_witness :
    (getStorage (α := Nat)
        ⟨some [("tasa_cache_a", Blob.corrupt 1), ("other", Blob.corrupt 2)], none⟩
        .localStorage
      = some [("tasa_cache_a", Blob.corrupt 1), ("other", Blob.corrupt 2)]) ∧
    ((clearAllCache (α := Nat)
        ⟨some [("tasa_cache_a", Blob.corrupt 1), ("other", Blob.corrupt 2)], none⟩
        .localStorage).1 = true ∧
      ∃ s2, getStorage (clearAllCache (α := Nat)
          ⟨some [("tasa_cache_a", Blob.corrupt 1), ("other", Blob.corrupt 2)], none⟩
          .localStorage).2 .localStorage = some s2 ∧
        (∀ k, jsStartsWith k "tasa_cache_" = true → s2.getItem k = none) ∧
        (∀ k, jsStartsWith k "tasa_cache_" = false →
          s2.getItem k = Store.getItem (α := Nat)
            [("tasa_cache_a", Blob.corrupt 1), ("other", Blob.corrupt 2)] k) ∧
        (getCacheStats (clearAllCache (α := Nat)
            ⟨some [("tasa_cache_a", Blob.corrupt 1), ("other", Blob.corrupt 2)], none⟩
            .localStorage).2 0 .localStorage (fun _ => 0)).cacheKeys = 0) :=
  ⟨by decide,
    (clearAllCache_frame
      ⟨some [("tasa_cache_a", Blob.corrupt 1), ("other", Blob.corrupt 2)], none⟩
      .localStorage 0 (fun _ => 0)).2
      [("tasa_cache_a", Blob.corrupt 1), ("other", Blob.corrupt 2)] (by decide)⟩

theorem keys_setItem (s : Store α) (k : String) (v : Blob α) :
    (s.setItem k v).keys = if k ∈ s.keys then s.keys else s.keys ++ [k] := by
  induction s with
  | nil => simp [Store.setItem, Store.keys]
  | cons p s ih =>
    by_cases h : p.1 = k
    · rw [show Store.setItem (p :: s) k v = (k, v) :: s from by
        simp [Store.setItem, h]]
      rw [keys_cons, keys_cons,
        if_pos (by rw [List.mem_cons]; exact Or.inl h.symm), h]
    · rw [show Store.setItem (p :: s) k v = p :: Store.setItem s k v from by
        simp [Store.setItem, h]]
      rw [keys_cons, keys_cons, ih]
      by_cases hm : k ∈ Store.keys s
      · rw [if_pos hm, if_pos (by rw [List.mem_cons]; exact Or.inr hm)]
      · have hno : ¬(k ∈ p.1 :: Store.keys s) := by
          rw [List.mem_cons]
          rintro (hh | hh)
          · exact h hh.symm
          · exact hm hh
        rw [if_neg hm, if_neg hno]
        simp

theorem statsVisit_congr (ks : List String) (s1 s2 : Store α)
    (strLen : CacheItem α → Nat) (now : Int) (acc : Nat × Nat)
    (h : ∀ k2 ∈ ks, s1.getItem k2 = s2.getItem k2) :
    ks.foldl (statsVisit s1 strLen now) acc
      = ks.foldl (statsVisit s2 strLen now) acc := by
  induction ks generalizing acc with
  | nil => rfl
  | cons a ks ih =>
    simp only [List.foldl_cons]
    rw [show statsVisit s1 strLen now acc a = statsVisit s2 strLen now acc a by
      unfold statsVisit
      rw [h a (List.mem_cons_self a ks)]]
    exact ih _ (fun k2 hk2 => h k2 (List.mem_cons_of_mem a hk2))

theorem cleanup_foldl_getItem_preserved (ks : List String) (acc : Store α × Nat)
    (k : String) (now : Int) (hk : k ∉ ks) :
    ((ks.foldl (cleanupVisit now) acc).1).getItem k = acc.1.getItem k := by
  induction ks generalizing acc with
  | nil => rfl
  | cons a ks ih =>
    rw [List.mem_cons, not_or] at hk
    have hak : a ≠ k := fun hh => hk.1 hh.symm
    simp only [List.foldl_cons]
    rw [ih _ hk.2]
    unfold cleanupVisit
    rcases hga : acc.1.getItem a with _ | b
    · rfl
    · rcases b with it | n
      · by_cases he : isExpired it now = true
        · simp [blobTruthy, he, getItem_removeItem_ne _ a k hak]
        · simp [blobTruthy, he]
      · by_cases hz : n = 0
        · simp [blobTruthy, hz]
        · simp [blobTruthy, hz, getItem_removeItem_ne _ a k hak]

theorem ne_of_prefixed (k k2 : String)
    (hk : jsStartsWith k "tasa_cache_" = false)
    (hk2 : jsStartsWith k2 "tasa_cache_" = true) : k2 ≠ k := by
  intro hh
  rw [hh, hk] at hk2
  exact Bool.false_ne_true hk2

/-- C10: setCacheData writes under exactly the caller's key, prepending
no prefix; an entry stored under an unprefixed key is counted in
getCacheStats.totalKeys, contributes nothing to cacheKeys, expiredKeys or
totalSize, and survives clearAllCache and cleanupExpiredCache. -/
theorem set_unprefixed_key_frame (w : Window α) (now : Int) (k : String)
    (d : α) (opts : CacheOptions) (st : StorageType)
    (strLen : CacheItem α → Nat) (s : Store α)
    (hk : jsStartsWith k "tasa_cache_" = false)
    (hst : (mergeConfig opts).storage = st)
    (hs : getStorage w st = some s) :
    getStorage (setCacheData w now k d opts).2 st
      = some (s.setItem k (.item ⟨d, now, now + (mergeConfig opts).ttl,
          (mergeConfig opts).version⟩)) ∧
    (∀ s1, getStorage (setCacheData w now k d opts).2 st = some s1 →
      s1.getItem k = some (.item ⟨d, now, now + (mergeConfig opts).ttl,
          (mergeConfig opts).version⟩) ∧
      (∀ k2, k2 ≠ k → s1.getItem k2 = s.getItem k2) ∧
      k ∈ s1.keys ∧
      (getCacheStats (setCacheData w now k d opts).2 now st strLen).totalKeys
        = s1.keys.length ∧
      (getCacheStats (setCacheData w now k d opts).2 now st strLen).cacheKeys
        = (getCacheStats w now st strLen).cacheKeys ∧
      (getCacheStats (setCacheData w now k d opts).2 now st strLen).expiredKeys
        = (getCacheStats w now st strLen).expiredKeys ∧
      (getCacheStats (setCacheData w now k d opts).2 now st strLen).totalSize
        = (getCacheStats w now st strLen).totalSize ∧
      (∃ s4, getStorage (clearAllCache (setCacheData w now k d opts).2 st).2 st
          = some s4 ∧ s4.getItem k = s1.getItem k) ∧
      (∃ s5, getStorage
          (cleanupExpiredCache (setCacheData w now k d opts).2 now st).2 st
          = some s5 ∧ s5.getItem k = s1.getItem k)) := by
  have hset : (setCacheData w now k d opts).2
      = w.setStore st (s.setItem k (.item ⟨d, now, now + (mergeConfig opts).ttl,
          (mergeConfig opts).version⟩)) := by
    simp only [setCacheData, hst, hs]
  have hgs1 : getStorage (setCacheData w now k d opts).2 st
      = some (s.setItem k (.item ⟨d, now, now + (mergeConfig opts).ttl,
          (mergeConfig opts).version⟩)) := by
    rw [hset, getStorage_setStore_self]
  refine ⟨hgs1, ?_⟩
  intro s1 hs1
  rw [hgs1] at hs1
  have hs1e : s1 = s.setItem k (.item ⟨d, now, now + (mergeConfig opts).ttl,
      (mergeConfig opts).version⟩) := (Option.some.injEq _ _).mp hs1.symm
  subst hs1e
  have hkeys : (s.setItem k (.item ⟨d, now, now + (mergeConfig opts).ttl,
      (mergeConfig opts).version⟩)).keys
      = if k ∈ s.keys then s.keys else s.keys ++ [k] := keys_setItem s k _
  have hmemk : k ∈ (s.setItem k (.item ⟨d, now, now + (mergeConfig opts).ttl,
      (mergeConfig opts).version⟩)).keys := by
    rw [hkeys]
    by_cases hm : k ∈ s.keys
    · rw [if_pos hm]; exact hm
    · rw [if_neg hm]
      exact List.mem_append_right _ (List.mem_singleton.mpr rfl)
  have hfil : (s.setItem k (.item ⟨d, now, now + (mergeConfig opts).ttl,
      (mergeConfig opts).version⟩)).keys.filter
        (fun k2 => jsStartsWith k2 "tasa_cache_")
      = s.keys.filter (fun k2 => jsStartsWith k2 "tasa_cache_") := by
    rw [hkeys]
    by_cases hm : k ∈ s.keys
    · rw [if_pos hm]
    · rw [if_neg hm, List.filter_append]
      simp [hk]
  have hcongr : ∀ acc : Nat × Nat,
      (s.keys.filter (fun k2 => jsStartsWith k2 "tasa_cache_")).foldl
        (statsVisit (s.setItem k (.item ⟨d, now, now + (mergeConfig opts).ttl,
          (mergeConfig opts).version⟩)) strLen now) acc
      = (s.keys.filter (fun k2 => jsStartsWith k2 "tasa_cache_")).foldl
        (statsVisit s strLen now) acc := by
    intro acc
    apply statsVisit_congr
    intro k2 hk2
    have hpref := (List.mem_filter.mp hk2).2
    exact getItem_setItem_ne s k k2 _ (Ne.symm (ne_of_prefixed k k2 hk hpref))
  refine ⟨getItem_setItem_self s k _,
    fun k2 hne => getItem_setItem_ne s k k2 _ (Ne.symm hne), hmemk,
    ?_, ?_, ?_, ?_, ?_, ?_⟩
  · unfold getCacheStats
    rw [hgs1]
  · unfold getCacheStats
    rw [hgs1, hs]
    simp only [hfil]
  · unfold getCacheStats
    rw [hgs1, hs]
    simp only [hfil, hcongr]
  · unfold getCacheStats
    rw [hgs1, hs]
    simp only [hfil, hcongr]
  · unfold clearAllCache
    rw [hgs1]
    refine ⟨_, getStorage_setStore_self _ _ _, ?_⟩
    rw [getItem_foldl_removeItem]
    have hnm : k ∉ (s.setItem k (.item ⟨d, now, now + (mergeConfig opts).ttl,
        (mergeConfig opts).version⟩)).keys.filter
          (fun k2 => jsStartsWith k2 "tasa_cache_") := by
      intro hmem
      exact ne_of_prefixed k k hk (List.mem_filter.mp hmem).2 rfl
    rw [if_neg hnm]
  · unfold cleanupExpiredCache
    rw [hgs1]
    refine ⟨_, getStorage_setStore_self _ _ _, ?_⟩
    apply cleanup_foldl_getItem_preserved
    intro hmem
    exact ne_of_prefixed k k hk (List.mem_filter.mp hmem).2 rfl

/-- Closed witness for set_unprefixed_key_frame at a concrete unprefixed
key. -/
theorem set_unprefixed_key_frame_witness :
    (jsStartsWith "profile_1" "tasa_cache_" = false ∧
      (mergeConfig {}).storage = StorageType.localStorage ∧
      getStorage (α := Nat) ⟨some [], none⟩ .localStorage = some []) ∧
    getStorage (setCacheData (α := Nat) ⟨some [], none⟩ 0 "profile_1" 7 {}).2
        .localStorage
      = some (Store.setItem [] "profile_1"
          (.item ⟨7, 0, 0 + (mergeConfig {}).ttl, (mergeConfig {}).version⟩)) :=
  ⟨⟨by decide, by decide, by decide⟩,
    (set_unprefixed_key_frame ⟨some [], none⟩ 0 "profile_1" 7 {} .localStorage
      (fun _ => 0) [] (by decide) (by decide) (by decide)).1⟩
